import Mathlib

/-!
Shallow embedding of the PracticeTestGenerator pipeline (TypeScript/Bun) in Lean 4,
together with proofs settling the frozen claims about the scorer, the question
synthesizer, the HTTP routing layer, the storage layer and the test assembler.

Conventions used throughout:
* JavaScript strings are modelled as Lean `String`; character-level operations
  (the default `Array.prototype.sort` comparison, `join(',')`, `split`, `replace`)
  are carried out on `String.data` (`List Char`).  The default JS sort compares
  strings lexicographically by UTF-16 code units, which coincides with
  lexicographic comparison of the code points in `String.data` for strings made
  of characters of the Basic Multilingual Plane (every string handled by this
  application); the embedding notes this where it is used.
* JavaScript numbers are IEEE-754 doubles.  Where double rounding provably
  changes an observable result (the score percentage), the embedding models the
  double computation exactly (`flFrac` below); where it provably cannot (the
  60/40 batch split, whose operands stay far below 2^52), doubles are idealised
  as exact integers, with a comment at the definition.
* Exceptions are modelled with `Except`; `NaN` results of `0/0` with `Option`.
-/

namespace PTG

/-! ## Data model (src/types/index.ts) -/

/-- Question.type in the source: the union `'multiple-choice' | 'multiple-select'`. -/
inductive QType where
  | multipleChoice
  | multipleSelect
deriving DecidableEq

/-- Wire form of `Question.type`. -/
def qTypeString : QType → String
  | .multipleChoice => "multiple-choice"
  | .multipleSelect => "multiple-select"

/-- One exam item (interface `Question`). -/
structure Question where
  id : String
  type : QType
  question : String
  options : List String
  correctAnswers : List String
  explanation : String
deriving DecidableEq

/-- A generated exam (interface `PracticeTest`).  `certificationUrl` is optional in
the source but always set by `generateTest`; it is modelled as a plain field. -/
structure PracticeTest where
  id : String
  certificationName : String
  certificationUrl : String
  generatedAt : String
  questionCount : Nat
  questions : List Question
deriving DecidableEq

/-- The body of `POST /api/test/:id/submit`: `Record<string, string[]>`, a mapping
from question id to the selected option strings, modelled as an association list
(JS object keys are unique). -/
abbrev AnswerMap := List (String × List String)

/-- A JavaScript `Error` value (only the message is observable here). -/
structure JsError where
  message : String
deriving DecidableEq

/-! ## Character-level string operations

JS string comparison (`<` on strings, used by the default `Array.prototype.sort`)
is lexicographic on UTF-16 code units; on BMP strings that is lexicographic
comparison of code points, i.e. of `String.data` under `Char` order. -/

/-- Lexicographic comparison of char lists: `lexLeB a b` is `a <= b` in the order
the default JS string comparison induces. -/
def lexLeB : List Char → List Char → Bool
  | [], _ => true
  | _ :: _, [] => false
  | a :: as, b :: bs => if a < b then true else if b < a then false else lexLeB as bs

/-- The order `lexLeB` as a relation on `String` (compare `s < t` in JS). -/
def StrLe (s t : String) : Prop := lexLeB s.data t.data = true

instance : DecidableRel StrLe := fun s t =>
  inferInstanceAs (Decidable (lexLeB s.data t.data = true))

/-- JS `array.join(sep)` for a one-character separator, at the `List Char` level:
`joinChar sep [x] = x`, `joinChar sep (x :: xs) = x ++ sep :: joinChar sep xs`. -/
def joinChar (sep : Char) : List (List Char) → List Char
  | [] => []
  | [x] => x
  | x :: y :: ys => x ++ sep :: joinChar sep (y :: ys)

/-- Index of the first occurrence of `sep` as a contiguous sublist of `s`
(JS `String.prototype.indexOf`). -/
def findSub (sep : List Char) : List Char → Option Nat
  | [] => if sep = [] then some 0 else none
  | c :: rest =>
    if sep.isPrefixOf (c :: rest) then some 0 else (findSub sep rest).map (· + 1)

/-- Element `[1]` of JS `s.split(sep)` for a non-empty separator: the text strictly
between the first occurrence of `sep` and the next non-overlapping occurrence
(or the end); `none` when `sep` does not occur (JS yields `undefined`). -/
def splitGet1 (sep s : List Char) : Option (List Char) :=
  match findSub sep s with
  | none => none
  | some i =>
    let rest := s.drop (i + sep.length)
    match findSub sep rest with
    | none => some rest
    | some j => some (rest.take j)

/-- JS `s.replace(sep, repl)` with a string pattern: replaces only the first
occurrence. -/
def replaceFirst (sep repl s : List Char) : List Char :=
  match findSub sep s with
  | none => s
  | some i => s.take i ++ repl ++ s.drop (i + sep.length)

/-! ## Exact model of the IEEE-754 double computations of `calculateScore`

`Math.round((correct / total) * 100)` performs two double roundings (the
division and the multiplication) before `Math.round`.  `flFrac` rounds a
positive fraction to 53 significant binary digits (round to nearest, ties to
even), which is exactly IEEE-754 binary64 rounding for values in the normal
range -- every value this program can produce.  `0/0` (`NaN`, the empty-test
case) is modelled with `Option` at the use site. -/

/-- Fuel-based ⌊log₂ n⌋ (kernel-computable; fuel `n` always suffices). -/
def log2fuel : Nat → Nat → Nat
  | 0, _ => 0
  | fuel + 1, n => if n ≤ 1 then 0 else log2fuel fuel (n / 2) + 1

/-- Fuel-based ⌈log₂ (b / a)⌉ for `a ≤ b`: the least `k` with `b ≤ a * 2 ^ k`
(fuel `b` always suffices for `a ≥ 1`). -/
def clog2fuel : Nat → Nat → Nat → Nat
  | 0, _, _ => 0
  | fuel + 1, a, b => if b ≤ a then 0 else clog2fuel fuel (2 * a) b + 1

/-- ⌊log₂ (a / b)⌋ for positive naturals `a`, `b`. -/
def ratLog2 (a b : Nat) : Int :=
  if b ≤ a then (log2fuel a (a / b) : Int) else -(clog2fuel b a b : Int)

/-- Rounding of the fraction `n / d` to the nearest integer, ties to even (the
IEEE-754 default rounding). -/
def roundNEdiv (n d : Nat) : Nat :=
  let q := n / d
  let r := n % d
  if 2 * r < d then q else if d < 2 * r then q + 1 else if q % 2 = 0 then q else q + 1

/-- IEEE-754 binary64 rounding of the positive fraction `a / b`, returned as a
dyadic fraction `(m, s)` standing for `m / 2 ^ s`: with `e = ⌊log₂ (a/b)⌋` and
`s = 52 - e`, the significand `m` is `a · 2 ^ s / b` rounded to the nearest
integer (ties to even), so `2 ^ 52 ≤ m ≤ 2 ^ 53` -- exactly the double nearest
to `a / b`.  Zero maps to zero; values of magnitude `2 ^ 52` and above (`e > 52`,
impossible for the percentages this program computes) and negative values are
outside the model. -/
def flFrac (a b : Nat) : Nat × Nat :=
  if a = 0 || b = 0 then (0, 1)
  else
    let e := ratLog2 a b
    let s := ((52 : Int) - e).toNat
    (roundNEdiv (a * 2 ^ s) b, s)

/-- JS `Math.round` on the fraction `a / b`: nearest integer, ties toward +∞,
i.e. ⌊a/b + 1/2⌋ = (2a + b) / 2b in natural division. -/
def jsMathRoundFrac (a b : Nat) : Nat := (2 * a + b) / (2 * b)

/-- The round-half-up of the specification, on an exact rational: ⌊x + 1/2⌋
(this is also what `Math.round` computes on the double actually passed to it). -/
def roundHalfUp (q : ℚ) : Int := ⌊q + 1 / 2⌋

/-! ## Scorer (`calculateScore` in src/api/routes.ts) -/

/-- JS `answers[question.id] || []`: a missing key yields `undefined`, which the
`||` turns into the empty array. -/
def lookupAnswers (answers : AnswerMap) (id : String) : List String :=
  (answers.lookup id).getD []

/-- The comparison key `[...xs].sort().join(',')` of the scorer: sort the strings
with the default JS comparison (`StrLe`; the sort is stable and `StrLe` is
antisymmetric, so any correct sort yields this exact list), then join with
commas.  The key is the `data` of the JS string, so two keys are equal iff the
JS strings are. -/
def jsSortedKey (l : List String) : List Char :=
  joinChar ',' ((l.insertionSort StrLe).map String.data)

/-- The per-question comparison of `calculateScore`:
`userSorted === correctSorted`. -/
def isCorrectAnswer (userAnswers correctAnswers : List String) : Bool :=
  jsSortedKey userAnswers == jsSortedKey correctAnswers

/-- One entry of `details` in the score result. -/
structure ScoreDetail where
  questionId : String
  correct : Bool
  userAnswers : List String
  correctAnswers : List String
deriving DecidableEq

/-- The body of the `for` loop of `calculateScore` for one question. -/
def detailFor (answers : AnswerMap) (q : Question) : ScoreDetail :=
  let userAnswers := lookupAnswers answers q.id
  { questionId := q.id
    correct := isCorrectAnswer userAnswers q.correctAnswers
    userAnswers := userAnswers
    correctAnswers := q.correctAnswers }

/-- Result shape of `calculateScore`.  `score` is a JS number: `none` models the
`NaN` produced by `0/0` on an empty test, `some z` an integer-valued double. -/
structure ScoreResult where
  score : Option Int
  total : Nat
  correct : Nat
  incorrect : Int
  details : List ScoreDetail
deriving DecidableEq

/-- `Math.round((correct / total) * 100)` with both double roundings made
explicit: the division `correct / total` rounds to a double, the product with
the exact double `100` rounds again, then `Math.round`.  `total = 0` gives
`0/0 = NaN`, hence `none`. -/
def jsRoundedPercent (correct total : Nat) : Option Int :=
  if total = 0 then none
  else
    let q := flFrac correct total
    let p := flFrac (100 * q.1) (2 ^ q.2)
    some ((jsMathRoundFrac p.1 (2 ^ p.2) : Nat) : Int)

/-- `calculateScore(test, answers)`: the loop is rendered as a `map` for the
details and a `countP` for the `correct` counter. -/
def calculateScore (test : PracticeTest) (answers : AnswerMap) : ScoreResult :=
  let details := test.questions.map (detailFor answers)
  let correct := details.countP (·.correct)
  { score := jsRoundedPercent correct test.questions.length
    total := test.questions.length
    correct := correct
    incorrect := (test.questions.length : Int) - (correct : Int)
    details := details }

/-! ## Question synthesizer (src/services/questionGenerator.ts)

The two completion calls are black boxes; the embedding takes their outcomes as
parameters.  What is embedded from the source: the 60/40 split, the skipping of
empty sub-batches, the mapping of parsed model records to canonical `Question`
values (ids, index-to-string answer resolution) and the Fisher-Yates shuffle. -/

/-- `Math.floor(questionCount * 0.6)`, i.e. ⌊6n/10⌋ (`Int.ediv` is floor
division for a positive divisor).  The double product `n * 0.6` rounds to a
value whose floor equals ⌊6n/10⌋ for every integer `|n| ≤ 2^52` (the error of
the double nearest to 0.6 is 0.2·2⁻⁵³, far below the distance of 6n/10 to the
nearest integer below it), so the double arithmetic is idealised as exact. -/
def multipleChoiceCountOf (questionCount : Int) : Int :=
  (questionCount * 6) / 10

/-- `questionCount - multipleChoiceCount`. -/
def multipleSelectCountOf (questionCount : Int) : Int :=
  questionCount - multipleChoiceCountOf questionCount

/-- A record of the multiple-choice reply array after `JSON.parse`:
`{question, options, correctAnswer (index), explanation}`. -/
structure RawMCQuestion where
  question : String
  options : List String
  correctAnswer : Nat
  explanation : String
deriving DecidableEq

/-- A record of the multiple-select reply array after `JSON.parse`:
`{question, options, correctAnswers (index array), explanation}`. -/
structure RawMSQuestion where
  question : String
  options : List String
  correctAnswers : List Nat
  explanation : String
deriving DecidableEq

/-- The id template `mc-${Date.now()}-${index}` (decimal printing of integers). -/
def mcIdStr (ts idx : Nat) : String :=
  "mc-" ++ Nat.repr ts ++ "-" ++ Nat.repr idx

/-- The id template `ms-${Date.now()}-${index}`. -/
def msIdStr (ts idx : Nat) : String :=
  "ms-" ++ Nat.repr ts ++ "-" ++ Nat.repr idx

/-- The arrow body of `parsed.map((q, index) => ...)` for multiple choice:
`correctAnswers: [q.options[q.correctAnswer]]`.  An in-range index selects the
option string; the out-of-range JS result `undefined` is not modelled (`getD`
with `""`), and no theorem relies on the out-of-range case. -/
def mcRecordToQuestion (ts idx : Nat) (q : RawMCQuestion) : Question :=
  { id := mcIdStr ts idx
    type := QType.multipleChoice
    question := q.question
    options := q.options
    correctAnswers := [q.options.getD q.correctAnswer ""]
    explanation := q.explanation }

/-- The arrow body of `parsed.map((q, index) => ...)` for multiple select:
`correctAnswers: q.correctAnswers.map(idx => q.options[idx])`. -/
def msRecordToQuestion (ts idx : Nat) (q : RawMSQuestion) : Question :=
  { id := msIdStr ts idx
    type := QType.multipleSelect
    question := q.question
    options := q.options
    correctAnswers := q.correctAnswers.map (fun i => q.options.getD i "")
    explanation := q.explanation }

/-- `parsed.map((q, index) => ...)` for the multiple-choice batch.  `Date.now()`
is read once per record, so the timestamp is a function of the index. -/
def mcQuestionsOfParsed (ts : Nat → Nat) (parsed : List RawMCQuestion) : List Question :=
  parsed.enum.map fun p => mcRecordToQuestion (ts p.1) p.1 p.2

/-- `parsed.map((q, index) => ...)` for the multiple-select batch. -/
def msQuestionsOfParsed (ts : Nat → Nat) (parsed : List RawMSQuestion) : List Question :=
  parsed.enum.map fun p => msRecordToQuestion (ts p.1) p.1 p.2

/-- The destructuring swap `[a[i], a[j]] = [a[j], a[i]]`.  In every execution both
indices are in range (`j ≤ i < length`); out-of-range indices leave the list
unchanged, which keeps the function total. -/
def swapJS (l : List α) (i j : Nat) : List α :=
  match l.get? i, l.get? j with
  | some a, some b => (l.set i b).set j a
  | _, _ => l

/-- The loop `for (let i = length - 1; i > 0; i--)` of `shuffleArray`: process
index `i`, swapping with `j = Math.floor(Math.random() * (i + 1)) ≤ i`.  `rand i`
is the value of `j` drawn at iteration `i`. -/
def fyLoop (rand : Nat → Nat) : Nat → List α → List α
  | 0, l => l
  | i + 1, l => fyLoop rand i (swapJS l (i + 1) (rand (i + 1)))

/-- `shuffleArray` (Fisher-Yates on a copy of the input). -/
def shuffleArray (rand : Nat → Nat) (l : List α) : List α :=
  fyLoop rand (l.length - 1) l

/-- A completion call made by `generateQuestions` (which sub-batch, how many
questions were requested). -/
structure GenCall where
  callType : QType
  count : Int
deriving DecidableEq

/-- `generateQuestions(studyGuideContent, webContent, questionCount)`: split the
count 60/40, invoke each sub-batch generator only when its count is positive
(`if (multipleChoiceCount > 0)`), concatenate, shuffle.  The completion-backed
sub-batch results are the parameters `mcBatch`/`msBatch`, and the returned call
log records which completion calls were made. -/
def generateQuestions (questionCount : Int) (mcBatch msBatch : List Question)
    (rand : Nat → Nat) : List Question × List GenCall :=
  let mcCount := multipleChoiceCountOf questionCount
  let msCount := multipleSelectCountOf questionCount
  let questions :=
    (if 0 < mcCount then mcBatch else []) ++ (if 0 < msCount then msBatch else [])
  let calls :=
    (if 0 < mcCount then [GenCall.mk QType.multipleChoice mcCount] else []) ++
      (if 0 < msCount then [GenCall.mk QType.multipleSelect msCount] else [])
  (shuffleArray rand questions, calls)

/-! ## HTTP routing for GET requests (src/server/index.ts, `Bun.serve` fetch)

Responses are JSON; `JValue` models the serialised payloads so that presence or
absence of object keys (the redaction claims) is expressible. -/

/-- A JSON value as produced by `JSON.stringify` of the response bodies. -/
inductive JValue where
  | str (s : String)
  | num (n : Int)
  | arr (items : List JValue)
  | obj (fields : List (String × JValue))

/-- Keys of a JSON object (empty for non-objects). -/
def jsonKeys : JValue → List String
  | .obj fields => fields.map Prod.fst
  | _ => []

/-- Serialisation of a full `Question` (all six fields, as stored). -/
def questionToJson (q : Question) : JValue :=
  .obj [("id", .str q.id), ("type", .str (qTypeString q.type)),
    ("question", .str q.question), ("options", .arr (q.options.map JValue.str)),
    ("correctAnswers", .arr (q.correctAnswers.map JValue.str)),
    ("explanation", .str q.explanation)]

/-- The object literal built by the test-taking handler:
`{id, type, question, options}` -- `correctAnswers` and `explanation` are not
included. -/
def takingQuestionToJson (q : Question) : JValue :=
  .obj [("id", .str q.id), ("type", .str (qTypeString q.type)),
    ("question", .str q.question), ("options", .arr (q.options.map JValue.str))]

/-- Serialisation of a stored `PracticeTest`. -/
def testToJson (t : PracticeTest) : JValue :=
  .obj [("id", .str t.id), ("certificationName", .str t.certificationName),
    ("certificationUrl", .str t.certificationUrl), ("generatedAt", .str t.generatedAt),
    ("questionCount", .num (t.questionCount : Int)),
    ("questions", .arr (t.questions.map questionToJson))]

/-- The spread `{...test, questions: test.questions.map(...)}` of the test-taking
handler: every test field kept, questions replaced by their redacted form. -/
def testForTakingToJson (t : PracticeTest) : JValue :=
  .obj [("id", .str t.id), ("certificationName", .str t.certificationName),
    ("certificationUrl", .str t.certificationUrl), ("generatedAt", .str t.generatedAt),
    ("questionCount", .num (t.questionCount : Int)),
    ("questions", .arr (t.questions.map takingQuestionToJson))]

/-- `sendError(..., message, status)` payload: `{error: message}`. -/
def errorJson (message : String) : JValue :=
  .obj [("error", .str message)]

/-- The stored tests, keyed by id (backed by `TestStorage.loadTest`). -/
abbrev TestStore := List (String × PracticeTest)

/-- The `fetch` if-chain of `Bun.serve` restricted to GET requests, in source
order; `path` is `url.pathname` as a char list.  The `'/api/generate-test'` and
`'/submit'` branches require `method === 'POST'` and can never match a GET
request, so they are omitted; the query string of `/api/search` is not modelled
(no claim touches it) and that branch answers as if `q` were absent.  Note the
source order: the generic `startsWith('/api/test/')` GET branch precedes the
`/answers` branch, so the latter is unreachable. -/
def serveGet (store : TestStore) (path : List Char) : Nat × JValue :=
  if path = "/api/search".data then
    (400, errorJson "Query parameter \"q\" is required")
  else if "/api/test/".data.isPrefixOf path then
    -- const testId = path.split('/api/test/')[1]; if (!testId) 400
    match splitGet1 "/api/test/".data path with
    | none => (400, errorJson "Test ID is required")
    | some tid =>
      if tid = [] then (400, errorJson "Test ID is required")
      else
        match store.lookup (String.mk tid) with
        | none => (404, errorJson "Test not found")
        | some t => (200, JValue.obj [("test", testForTakingToJson t)])
  else if "/api/test/".data.isPrefixOf path && "/answers".data.isSuffixOf path then
    -- dead code: any GET matching this branch already matched the previous one
    match splitGet1 "/api/test/".data path with
    | none => (400, errorJson "Test ID is required")
    | some tid0 =>
      let tid := replaceFirst "/answers".data [] tid0
      if tid = [] then (400, errorJson "Test ID is required")
      else
        match store.lookup (String.mk tid) with
        | none => (404, errorJson "Test not found")
        | some t => (200, JValue.obj [("test", testToJson t)])
  else (404, errorJson "Not found")

/-! ## Test repository (src/services/testStorage.ts) -/

/-- Contents of a stored file as seen by `JSON.parse`: either a well-formed test
document or malformed text. -/
inductive StoredDoc where
  | wellFormed (t : PracticeTest)
  | malformed
deriving DecidableEq

/-- The storage directory: file name to contents. -/
abbrev FileSys := List (String × StoredDoc)

/-- `existsSync(filePath)`. -/
def existsSync (fs : FileSys) (name : String) : Bool :=
  (fs.lookup name).isSome

/-- `readFile(filePath, 'utf-8')`: rejects when the file is absent. -/
def readFileE (fs : FileSys) (name : String) : Except JsError StoredDoc :=
  match fs.lookup name with
  | some d => .ok d
  | none => .error { message := "ENOENT" }

/-- `JSON.parse(content) as PracticeTest`: throws on malformed text. -/
def jsonParseTest : StoredDoc → Except JsError PracticeTest
  | .wellFormed t => .ok t
  | .malformed => .error { message := "SyntaxError: invalid JSON" }

/-- The `try` block of `loadTest`: return `null` when the file does not exist,
otherwise read and parse (either step may throw). -/
def loadTestTry (fs : FileSys) (testId : String) : Except JsError (Option PracticeTest) :=
  if !existsSync fs (testId ++ ".json") then .ok none
  else do
    let doc ← readFileE fs (testId ++ ".json")
    let t ← jsonParseTest doc
    return some t

/-- `loadTest`: the surrounding `catch` turns any thrown error into `null`. -/
def loadTest (fs : FileSys) (testId : String) : Option PracticeTest :=
  match loadTestTry fs testId with
  | .ok v => v
  | .error _ => none

/-! ## Test assembler (`generateTest` in src/api/routes.ts)

The content extraction and the question synthesis are awaited capability calls
whose outcomes are parameters; a rejection of either propagates out of
`generateTest` unchanged (JS exception propagation = the `Except` short
circuit).  The second component collects the `saveTest` writes: storage is
touched only after both stages succeed. -/

def generateTest (fetched : Except JsError String)
    (synthesize : String → Except JsError (List Question))
    (freshId generatedAt certificationName studyGuideUrl : String) :
    Except JsError PracticeTest × List PracticeTest :=
  match fetched with
  | .error e => (.error e, [])
  | .ok content =>
    match synthesize content with
    | .error e => (.error e, [])
    | .ok questions =>
      let test : PracticeTest :=
        { id := freshId
          certificationName := certificationName
          certificationUrl := studyGuideUrl
          generatedAt := generatedAt
          questionCount := questions.length
          questions := questions }
      (.ok test, [test])

/-! ## The Question invariant (spec section 3 / claim C2) -/

/-- The invariant the spec states for every generated `Question`:
`correctAnswers` is a non-empty subset of `options`; exactly one element for a
single-answer question; 2 or 3 -- never 1 and never all of the options -- for a
multi-answer question. -/
def QuestionInvariant (q : Question) : Prop :=
  q.correctAnswers ≠ [] ∧
  (∀ a ∈ q.correctAnswers, a ∈ q.options) ∧
  (q.type = QType.multipleChoice → q.correctAnswers.length = 1) ∧
  (q.type = QType.multipleSelect →
    (q.correctAnswers.length = 2 ∨ q.correctAnswers.length = 3) ∧
    ¬ (∀ o ∈ q.options, o ∈ q.correctAnswers))

instance : DecidablePred QuestionInvariant := fun q => by
  unfold QuestionInvariant
  exact inferInstance

/-! ## Concrete instances used by counterexamples and witnesses -/

/-- A one-question test whose options contain a comma: options `a`, `b`, `a,b`,
correct answers `a` and `b`. -/
def demoQComma : Question :=
  { id := "q1"
    type := QType.multipleSelect
    question := "Q"
    options := ["a", "b", "a,b"]
    correctAnswers := ["a", "b"]
    explanation := "" }

def demoTestComma : PracticeTest :=
  { id := "test-1-comma"
    certificationName := "AZ-900"
    certificationUrl := "https://learn.example/az-900"
    generatedAt := "2026-01-01T00:00:00.000Z"
    questionCount := 1
    questions := [demoQComma] }

/-- A submission selecting the single option string `a,b`. -/
def demoAnswersComma : AnswerMap := [("q1", ["a,b"])]

/-- A plain single-answer question. -/
def demoQ1 : Question :=
  { id := "q1"
    type := QType.multipleChoice
    question := "Q1"
    options := ["A", "B"]
    correctAnswers := ["B", "A"]
    explanation := "E1" }

def demoQ2 : Question :=
  { id := "q2"
    type := QType.multipleSelect
    question := "Q2"
    options := ["A", "B", "C", "D"]
    correctAnswers := ["A", "C"]
    explanation := "E2" }

def demoTest1 : PracticeTest :=
  { id := "test-1-abc"
    certificationName := "AZ-900"
    certificationUrl := "https://learn.example/az-900"
    generatedAt := "2026-01-01T00:00:00.000Z"
    questionCount := 1
    questions := [demoQ1] }

def demoAnswers1 : AnswerMap := [("q1", ["A", "B"])]

/-- A store holding exactly `demoTest1` under its id. -/
def demoStore : TestStore := [("test-1-abc", demoTest1)]

/-- A 40-question test (the default `questionCount`), question `i` named `q<i>`
with options `A`/`B` and correct answer `A`. -/
def demoQuestionAt (i : Nat) : Question :=
  { id := "q" ++ Nat.repr i
    type := QType.multipleChoice
    question := "Q"
    options := ["A", "B"]
    correctAnswers := ["A"]
    explanation := "" }

def demoTest40 : PracticeTest :=
  { id := "test-40"
    certificationName := "AZ-900"
    certificationUrl := "https://learn.example/az-900"
    generatedAt := "2026-01-01T00:00:00.000Z"
    questionCount := 40
    questions := (List.range 40).map demoQuestionAt }

/-- A submission answering the first 23 of the 40 questions correctly and the
remaining 17 incorrectly. -/
def demoAnswers23 : AnswerMap :=
  (List.range 40).map fun i => ("q" ++ Nat.repr i, if i < 23 then ["A"] else ["B"])

/-- A parsed multiple-select model record with a single correct-answer index --
well-formed JSON the completion provider can return at any time. -/
def demoRawMS : RawMSQuestion :=
  { question := "Q?"
    options := ["A", "B", "C", "D"]
    correctAnswers := [0]
    explanation := "E" }

/-- A storage directory holding one well-formed test document. -/
def demoFS : FileSys := [("test-1-abc.json", StoredDoc.wellFormed demoTest1)]

/-- A synthesizer outcome that rejects, as `generateQuestions` does when the
completion reply carries no JSON array. -/
def demoFailingSynth : String → Except JsError (List Question) :=
  fun _ => Except.error { message := "Failed to generate questions: Invalid JSON response from OpenAI" }

/-- Numeric value of a decimal digit character (proof support for the
injectivity of `Nat.repr`). -/
def digitVal (c : Char) : Nat := c.toNat - '0'.toNat

/-- Value of a big-endian decimal digit string (proof support for the
injectivity of `Nat.repr`). -/
def ofDigits : List Char → Nat
  | [] => 0
  | c :: cs => digitVal c * 10 ^ cs.length + ofDigits cs

/-! ## Theorems: helper lemmas first, then, for each claim, one main theorem
(with its witness or counterexample where required). -/

/-! ## C6: stage errors propagate unmodified and nothing is persisted -/

/-- C6: if content extraction rejects, `generateTest` forwards exactly that
error and performs no `saveTest` write; likewise when question synthesis
rejects after a successful extraction. -/
theorem c6_error_propagation_no_write
    (synthesize : String → Except JsError (List Question))
    (freshId generatedAt certificationName studyGuideUrl : String) (e : JsError) :
    generateTest (.error e) synthesize freshId generatedAt certificationName studyGuideUrl
      = (.error e, []) ∧
    ∀ content, synthesize content = .error e →
      generateTest (.ok content) synthesize freshId generatedAt certificationName studyGuideUrl
        = (.error e, []) := by
  refine ⟨rfl, fun content h => ?_⟩
  simp only [generateTest, h]

/-- Witness for C6 at a concrete failing synthesis stage. -/
theorem c6_error_propagation_no_write_witness :
    generateTest (Except.ok "guide text") demoFailingSynth "id1" "t1" "AZ-900" "https://u"
      = (Except.error { message := "Failed to generate questions: Invalid JSON response from OpenAI" }, []) :=
  (c6_error_propagation_no_write demoFailingSynth "id1" "t1" "AZ-900" "https://u"
    { message := "Failed to generate questions: Invalid JSON response from OpenAI" }).2
    "guide text" rfl

/-! ## C7: loading an unknown id yields `null`, never a rejection -/

/-- C7: when no file for `testId` exists, the `try` body of `loadTest` completes
normally with `null` (nothing is thrown) and `loadTest` returns `null`. -/
theorem c7_load_unknown_id_not_found (fs : FileSys) (testId : String)
    (h : fs.lookup (testId ++ ".json") = none) :
    loadTestTry fs testId = .ok none ∧ loadTest fs testId = none := by
  have h1 : loadTestTry fs testId = .ok none := by
    simp [loadTestTry, existsSync, h]
  exact ⟨h1, by simp [loadTest, h1]⟩

/-- Witness for C7 on a store that holds one test and is asked for another id. -/
theorem c7_load_unknown_id_not_found_witness :
    demoFS.lookup ("nonexistent" ++ ".json") = none ∧ loadTest demoFS "nonexistent" = none :=
  ⟨by decide, (c7_load_unknown_id_not_found demoFS "nonexistent" (by decide)).2⟩

/-! ## C2: the synthesizer does not enforce the Question invariant -/

/-- C2 (code bug): a syntactically valid multiple-select completion reply whose
record carries a single correct-answer index is mapped unvalidated to a
multiple-select `Question` with one correct answer, violating the invariant the
spec requires of every generated question. -/
theorem c2_synthesizer_invariant_violation :
    ¬ ∀ q ∈ msQuestionsOfParsed (fun _ => 0) [demoRawMS], QuestionInvariant q := by
  decide

/-! ## C3: the `/answers` route is shadowed and unreachable -/

/-- C3 (code bug): with `test-1-abc` stored, `GET /api/test/test-1-abc/answers`
is captured by the earlier `startsWith('/api/test/')` branch, which looks up the
id `test-1-abc/answers` and answers `404 Test not found`; the unredacted
`/answers` handler below it can never run. -/
theorem c3_answers_route_shadowed :
    serveGet demoStore "/api/test/test-1-abc/answers".data
      = (404, errorJson "Test not found") := by
  rfl

/-! ## C5: the score is not round-half-up of the exact percentage -/

/-- C5 (code bug): on the default 40-question test with 23 correct answers the
doubles `(23/40)*100` evaluate to `57.49999999999999289…`, so `calculateScore`
returns 57, while round-half-up of the exact percentage `57.5` is 58 (`total`
and `correct` are as claimed). -/
theorem c5_float_rounding_divergence :
    (calculateScore demoTest40 demoAnswers23).total = 40 ∧
    (calculateScore demoTest40 demoAnswers23).correct = 23 ∧
    (calculateScore demoTest40 demoAnswers23).score = some 57 ∧
    roundHalfUp ((23 : ℚ) / 40 * 100) = 58 := by
  refine ⟨by decide, by decide, by decide, ?_⟩
  norm_num [roundHalfUp]

/-! ## C8: the 60/40 sub-batch split and the skipping of empty sub-batches -/

/-- C8: the sub-batch sizes are ⌊n·0.6⌋ and the remainder (for a natural request
`n` this is `3n/5` and `n - 3n/5`), and a sub-batch is invoked iff its size is
positive: a zero count produces no completion call of that kind, a positive
count produces exactly the call with that count. -/
theorem c8_batch_split (n : Nat) (mcBatch msBatch : List Question) (rand : Nat → Nat) :
    multipleChoiceCountOf (n : Int) = ((3 * n / 5 : Nat) : Int) ∧
    multipleSelectCountOf (n : Int) = (n : Int) - ((3 * n / 5 : Nat) : Int) ∧
    (multipleChoiceCountOf (n : Int) = 0 →
      ∀ call ∈ (generateQuestions (n : Int) mcBatch msBatch rand).2,
        call.callType ≠ QType.multipleChoice) ∧
    (0 < multipleChoiceCountOf (n : Int) →
      GenCall.mk QType.multipleChoice (multipleChoiceCountOf (n : Int))
        ∈ (generateQuestions (n : Int) mcBatch msBatch rand).2) ∧
    (multipleSelectCountOf (n : Int) = 0 →
      ∀ call ∈ (generateQuestions (n : Int) mcBatch msBatch rand).2,
        call.callType ≠ QType.multipleSelect) ∧
    (0 < multipleSelectCountOf (n : Int) →
      GenCall.mk QType.multipleSelect (multipleSelectCountOf (n : Int))
        ∈ (generateQuestions (n : Int) mcBatch msBatch rand).2) := by
  have hmc : multipleChoiceCountOf (n : Int) = ((3 * n / 5 : Nat) : Int) := by
    unfold multipleChoiceCountOf
    omega
  have hms : multipleSelectCountOf (n : Int) = (n : Int) - ((3 * n / 5 : Nat) : Int) := by
    unfold multipleSelectCountOf
    omega
  refine ⟨hmc, hms, ?_, ?_, ?_, ?_⟩
  · intro h0 call hcall
    simp only [generateQuestions, h0, lt_irrefl, if_false, List.nil_append] at hcall
    split at hcall
    · simp only [List.mem_singleton] at hcall
      simp [hcall]
    · simp at hcall
  · intro hpos
    simp [generateQuestions, hpos]
  · intro h0 call hcall
    simp only [generateQuestions, h0, lt_irrefl, if_false, List.append_nil] at hcall
    split at hcall
    · simp only [List.mem_singleton] at hcall
      simp [hcall]
    · simp at hcall
  · intro hpos
    simp [generateQuestions, hpos]

/-- Witness for C8 at `n = 1`: the multiple-choice count is 0 and no
multiple-choice completion call is made. -/
theorem c8_batch_split_witness :
    multipleChoiceCountOf (1 : Int) = 0 ∧
    ∀ call ∈ (generateQuestions (1 : Int) [demoQ1] [demoQ2] (fun _ => 0)).2,
      call.callType ≠ QType.multipleChoice :=
  ⟨by decide,
    (c8_batch_split 1 [demoQ1] [demoQ2] (fun _ => 0)).2.2.1 (by decide)⟩

/-! ## C9: the delivered sequence is a permutation of the two sub-batches -/

/-- Helper: replacing position `k` (which holds `b`) by `a` and putting `b` in
front is a permutation of putting `a` in front. -/
theorem cons_set_perm : ∀ (xs : List α) (k : Nat) (b a : α),
    xs.get? k = some b → List.Perm (b :: xs.set k a) (a :: xs) := by
  intro xs
  induction xs with
  | nil => intro k b a h; simp at h
  | cons y ys ih =>
    intro k b a h
    cases k with
    | zero =>
      simp only [List.get?] at h
      cases h
      simpa using List.Perm.swap a y ys
    | succ m =>
      simp only [List.get?] at h
      have h1 : List.Perm (b :: y :: ys.set m a) (y :: b :: ys.set m a) :=
        (List.Perm.swap b y _).symm
      have h2 : List.Perm (y :: b :: ys.set m a) (y :: a :: ys) := (ih m b a h).cons y
      have h3 : List.Perm (y :: a :: ys) (a :: y :: ys) := List.Perm.swap a y ys
      simpa using (h1.trans h2).trans h3

/-- Helper: the double `set` that realises the JS destructuring swap is a
permutation. -/
theorem set_set_perm : ∀ (l : List α) (i j : Nat) (a b : α),
    l.get? i = some a → l.get? j = some b → List.Perm ((l.set i b).set j a) l := by
  intro l
  induction l with
  | nil => intro i j a b hi _; simp at hi
  | cons x xs ih =>
    intro i j a b hi hj
    cases i with
    | zero =>
      simp only [List.get?] at hi
      cases hi
      cases j with
      | zero =>
        simp only [List.get?] at hj
        cases hj
        simp
      | succ k =>
        simp only [List.get?] at hj
        simpa using cons_set_perm xs k b x hj
    | succ m =>
      cases j with
      | zero =>
        simp only [List.get?] at hi hj
        cases hj
        simpa using cons_set_perm xs m a x hi
      | succ k =>
        simp only [List.get?] at hi hj
        simpa using (ih m k a b hi hj).cons x

/-- The JS destructuring swap leaves the multiset of elements unchanged. -/
theorem swapJS_perm (l : List α) (i j : Nat) : List.Perm (swapJS l i j) l := by
  unfold swapJS
  cases hi : l.get? i with
  | none => exact List.Perm.refl l
  | some a =>
    cases hj : l.get? j with
    | none => exact List.Perm.refl l
    | some b => exact set_set_perm l i j a b hi hj

/-- The Fisher-Yates loop permutes its input, whatever the random draws are. -/
theorem fyLoop_perm (rand : Nat → Nat) :
    ∀ (n : Nat) (l : List α), List.Perm (fyLoop rand n l) l := by
  intro n
  induction n with
  | zero => intro l; exact List.Perm.refl l
  | succ i ih =>
    intro l
    exact (ih _).trans (swapJS_perm l (i + 1) (rand (i + 1)))

/-- `shuffleArray` returns a permutation of its input. -/
theorem shuffleArray_perm (rand : Nat → Nat) (l : List α) :
    List.Perm (shuffleArray rand l) l :=
  fyLoop_perm rand (l.length - 1) l

/-- C9: when both sub-batches are non-empty, the question sequence delivered by
`generateQuestions` is a permutation of the concatenation of the single-answer
and multi-answer sub-batches -- no question is added or lost by the shuffle. -/
theorem c9_shuffle_permutation (questionCount : Int) (mcBatch msBatch : List Question)
    (rand : Nat → Nat)
    (hmc : 0 < multipleChoiceCountOf questionCount)
    (hms : 0 < multipleSelectCountOf questionCount) :
    List.Perm (generateQuestions questionCount mcBatch msBatch rand).1 (mcBatch ++ msBatch) := by
  have heq : (generateQuestions questionCount mcBatch msBatch rand).1
      = shuffleArray rand (mcBatch ++ msBatch) := by
    simp [generateQuestions, hmc, hms]
  rw [heq]
  exact shuffleArray_perm rand (mcBatch ++ msBatch)

/-- Witness for C9 at `questionCount = 5` (sub-batch sizes 3 and 2). -/
theorem c9_shuffle_permutation_witness :
    0 < multipleChoiceCountOf 5 ∧ 0 < multipleSelectCountOf 5 ∧
    List.Perm (generateQuestions 5 [demoQ1] [demoQ2] (fun _ => 0)).1 ([demoQ1] ++ [demoQ2]) :=
  ⟨by decide, by decide,
    c9_shuffle_permutation 5 [demoQ1] [demoQ2] (fun _ => 0) (by decide) (by decide)⟩

/-! ## C4: the test-taking view is redacted -/

/-- Helper: a pattern whose first character does not occur in `s` does not occur
in `s` at all. -/
theorem findSub_eq_none (c : Char) (cs : List Char) :
    ∀ (s : List Char), c ∉ s → findSub (c :: cs) s = none := by
  intro s
  induction s with
  | nil => intro _; simp [findSub]
  | cons x rest ih =>
    intro h
    have hx : ¬ (c :: cs).isPrefixOf (x :: rest) = true := by
      intro hp
      rw [List.isPrefixOf_iff_prefix, List.cons_prefix_cons] at hp
      exact h (hp.1 ▸ List.mem_cons_self x rest)
    have hrest : findSub (c :: cs) rest = none :=
      ih (fun hc => h (List.mem_cons_of_mem _ hc))
    simp [findSub, hx, hrest]

/-- Helper: splitting `sep ++ t` on `sep` puts exactly `t` at position 1 when
the head character of `sep` does not occur in `t`. -/
theorem splitGet1_sep_append (c : Char) (cs t : List Char) (hc : c ∉ t) :
    splitGet1 (c :: cs) ((c :: cs) ++ t) = some t := by
  have h1 : findSub (c :: cs) (c :: (cs ++ t)) = some 0 := by
    simp [findSub]
  have h2 : findSub (c :: cs) t = none := findSub_eq_none c cs t hc
  simp [splitGet1, h1, h2, List.drop_left]

/-- C4: for a stored test, `GET /api/test/{id}` answers 200 with the spread
whose questions carry exactly the keys `id`, `type`, `question`, `options` --
in particular neither `correctAnswers` nor `explanation` -- for every question.
The id hypotheses hold for every id `generateTest` produces
(`test-<digits>-<base36>`: non-empty, no slash). -/
theorem c4_taking_view_redacted (store : TestStore) (t : String) (test : PracticeTest)
    (hlook : store.lookup t = some test)
    (hne : t.data ≠ [])
    (hslash : ('/' : Char) ∉ t.data) :
    serveGet store ("/api/test/".data ++ t.data)
      = (200, JValue.obj [("test", testForTakingToJson test)]) ∧
    ∀ q ∈ test.questions,
      jsonKeys (takingQuestionToJson q) = ["id", "type", "question", "options"] ∧
      "correctAnswers" ∉ jsonKeys (takingQuestionToJson q) ∧
      "explanation" ∉ jsonKeys (takingQuestionToJson q) := by
  constructor
  · have hsearch : "/api/test/".data ++ t.data ≠ "/api/search".data := by
      intro h
      rw [show "/api/test/".data = ['/', 'a', 'p', 'i', '/', 't', 'e', 's', 't', '/'] from rfl,
        show "/api/search".data = ['/', 'a', 'p', 'i', '/', 's', 'e', 'a', 'r', 'c', 'h'] from rfl]
        at h
      simp at h
    have hpref : "/api/test/".data.isPrefixOf ("/api/test/".data ++ t.data) = true := by
      rw [List.isPrefixOf_iff_prefix]
      exact List.prefix_append _ _
    have hsplit : splitGet1 ['/', 'a', 'p', 'i', '/', 't', 'e', 's', 't', '/']
        ('/' :: 'a' :: 'p' :: 'i' :: '/' :: 't' :: 'e' :: 's' :: 't' :: '/' :: t.data)
        = some t.data := by
      simpa using
        splitGet1_sep_append '/' ['a', 'p', 'i', '/', 't', 'e', 's', 't', '/'] t.data hslash
    have hmk : String.mk t.data = t := rfl
    simp [serveGet, hsearch, hpref, hsplit, hne, hmk, hlook]
  · intro q _
    refine ⟨rfl, ?_, ?_⟩
    · show "correctAnswers" ∉ (["id", "type", "question", "options"] : List String)
      decide
    · show "explanation" ∉ (["id", "type", "question", "options"] : List String)
      decide

/-- Witness for C4 on the one-test store. -/
theorem c4_taking_view_redacted_witness :
    demoStore.lookup "test-1-abc" = some demoTest1 ∧
    serveGet demoStore ("/api/test/".data ++ "test-1-abc".data)
      = (200, JValue.obj [("test", testForTakingToJson demoTest1)]) :=
  ⟨by decide,
    (c4_taking_view_redacted demoStore "test-1-abc" demoTest1 (by decide) (by decide)
      (by decide)).1⟩

/-! ## C1: what the scorer comparison key actually decides -/

/-- `lexLeB` is total. -/
theorem lexLeB_total : ∀ a b : List Char, lexLeB a b = true ∨ lexLeB b a = true := by
  intro a
  induction a with
  | nil => intro b; left; rfl
  | cons x xs ih =>
    intro b
    cases b with
    | nil => right; rfl
    | cons y ys =>
      rcases lt_trichotomy x y with h | h | h
      · left; simp [lexLeB, h]
      · subst h
        rcases ih ys with h2 | h2
        · left; simp [lexLeB, h2]
        · right; simp [lexLeB, h2]
      · right; simp [lexLeB, h]

/-- `lexLeB` is transitive. -/
theorem lexLeB_trans : ∀ a b c : List Char,
    lexLeB a b = true → lexLeB b c = true → lexLeB a c = true := by
  intro a
  induction a with
  | nil => intro b c _ _; rfl
  | cons x xs ih =>
    intro b c hab hbc
    cases b with
    | nil => simp [lexLeB] at hab
    | cons y ys =>
      cases c with
      | nil => simp [lexLeB] at hbc
      | cons z zs =>
        by_cases hxy : x < y
        · by_cases hyz : y < z
          · simp [lexLeB, lt_trans hxy hyz]
          · by_cases hzy : z < y
            · simp [lexLeB, hyz, hzy] at hbc
            · have hyz2 : y = z := le_antisymm (not_lt.mp hzy) (not_lt.mp hyz)
              subst hyz2
              simp [lexLeB, hxy]
        · by_cases hyx : y < x
          · simp [lexLeB, hxy, hyx] at hab
          · have hxy2 : x = y := le_antisymm (not_lt.mp hyx) (not_lt.mp hxy)
            subst hxy2
            simp only [lexLeB, lt_irrefl, if_false] at hab
            by_cases hxz : x < z
            · simp [lexLeB, hxz]
            · by_cases hzx : z < x
              · simp [lexLeB, hxz, hzx] at hbc
              · have hxz2 : x = z := le_antisymm (not_lt.mp hzx) (not_lt.mp hxz)
                subst hxz2
                simp only [lexLeB, lt_irrefl, if_false] at hbc ⊢
                exact ih ys zs hab hbc

/-- `lexLeB` is antisymmetric. -/
theorem lexLeB_antisymm : ∀ a b : List Char,
    lexLeB a b = true → lexLeB b a = true → a = b := by
  intro a
  induction a with
  | nil =>
    intro b _ hba
    cases b with
    | nil => rfl
    | cons y ys => simp [lexLeB] at hba
  | cons x xs ih =>
    intro b hab hba
    cases b with
    | nil => simp [lexLeB] at hab
    | cons y ys =>
      by_cases hxy : x < y
      · simp [lexLeB, hxy, asymm hxy] at hba
      · by_cases hyx : y < x
        · simp [lexLeB, hxy, hyx] at hab
        · have hxy2 : x = y := le_antisymm (not_lt.mp hyx) (not_lt.mp hxy)
          subst hxy2
          simp only [lexLeB, lt_irrefl, if_false] at hab hba
          rw [ih ys hab hba]

/-- Helper: a separator-free block followed by the separator determines the
decomposition of a char list. -/
theorem append_sep_inj (sep : Char) :
    ∀ (x y r1 r2 : List Char), sep ∉ x → sep ∉ y →
      x ++ sep :: r1 = y ++ sep :: r2 → x = y ∧ r1 = r2 := by
  intro x
  induction x with
  | nil =>
    intro y r1 r2 _ hy h
    cases y with
    | nil => simpa using h
    | cons b bs =>
      simp only [List.nil_append, List.cons_append, List.cons.injEq] at h
      rcases h with ⟨h1, _⟩
      subst h1
      exact absurd (List.mem_cons_self _ _) hy
  | cons a as ih =>
    intro y r1 r2 hx hy h
    cases y with
    | nil =>
      simp only [List.nil_append, List.cons_append, List.cons.injEq] at h
      rcases h with ⟨h1, _⟩
      subst h1
      exact absurd (List.mem_cons_self _ _) hx
    | cons b bs =>
      simp only [List.cons_append, List.cons.injEq] at h
      rcases h with ⟨h1, h2⟩
      subst h1
      have hx2 : sep ∉ as := fun hc => hx (List.mem_cons_of_mem _ hc)
      have hy2 : sep ∉ bs := fun hc => hy (List.mem_cons_of_mem _ hc)
      rcases ih bs r1 r2 hx2 hy2 h2 with ⟨hab, hr⟩
      exact ⟨by rw [hab], hr⟩

/-- `joinChar` is injective on lists of non-empty, separator-free blocks (the
shape under which `join(',')` faithfully encodes the list). -/
theorem joinChar_inj (sep : Char) :
    ∀ (l1 l2 : List (List Char)),
      (∀ s ∈ l1, s ≠ [] ∧ sep ∉ s) → (∀ s ∈ l2, s ≠ [] ∧ sep ∉ s) →
      joinChar sep l1 = joinChar sep l2 → l1 = l2 := by
  intro l1
  induction l1 with
  | nil =>
    intro l2 _ h2 h
    cases l2 with
    | nil => rfl
    | cons y ys =>
      cases ys with
      | nil =>
        simp only [joinChar] at h
        exact absurd h.symm (h2 y (by simp)).1
      | cons z zs =>
        simp only [joinChar] at h
        exact absurd h.symm (by simp)
  | cons x xs ih =>
    intro l2 h1 h2 h
    cases xs with
    | nil =>
      cases l2 with
      | nil =>
        simp only [joinChar] at h
        exact absurd h (h1 x (by simp)).1
      | cons y ys =>
        cases ys with
        | nil =>
          simp only [joinChar] at h
          rw [h]
        | cons z zs =>
          simp only [joinChar] at h
          have hmem : sep ∈ x := by
            rw [h]
            exact List.mem_append_right _ (List.mem_cons_self _ _)
          exact absurd hmem (h1 x (by simp)).2
    | cons x2 xs2 =>
      cases l2 with
      | nil =>
        simp only [joinChar] at h
        exact absurd h (by simp)
      | cons y ys =>
        cases ys with
        | nil =>
          simp only [joinChar] at h
          have hmem : sep ∈ y := by
            rw [← h]
            exact List.mem_append_right _ (List.mem_cons_self _ _)
          exact absurd hmem (h2 y (by simp)).2
        | cons z zs =>
          simp only [joinChar] at h
          rcases append_sep_inj sep x y _ _ (h1 x (by simp)).2 (h2 y (by simp)).2 h with
            ⟨hxy, hr⟩
          have htail := ih (z :: zs)
            (fun s hs => h1 s (List.mem_cons_of_mem _ hs))
            (fun s hs => h2 s (List.mem_cons_of_mem _ hs)) hr
          rw [hxy, htail]

/-- A string is empty iff its char list is. -/
theorem string_data_ne_nil {s : String} (h : s ≠ "") : s.data ≠ [] := by
  intro hd
  exact h (String.ext hd)

/-- Key lemma for C1: on non-empty, comma-free answer strings the scorer key
`[...xs].sort().join(',')` is equal for two lists iff they are permutations of
each other (multiset equality -- order-independent, duplicates counted). -/
theorem jsSortedKey_eq_iff_perm (u c : List String)
    (hu : ∀ s ∈ u, s ≠ "" ∧ (',' : Char) ∉ s.data)
    (hc : ∀ s ∈ c, s ≠ "" ∧ (',' : Char) ∉ s.data) :
    jsSortedKey u = jsSortedKey c ↔ List.Perm u c := by
  haveI instT : IsTotal String StrLe := ⟨fun a b => lexLeB_total a.data b.data⟩
  haveI instTr : IsTrans String StrLe :=
    ⟨fun a b c hab hbc => lexLeB_trans a.data b.data c.data hab hbc⟩
  haveI instA : IsAntisymm String StrLe :=
    ⟨fun a b hab hba => String.ext (lexLeB_antisymm a.data b.data hab hba)⟩
  constructor
  · intro h
    have hinj : (u.insertionSort StrLe).map String.data
        = (c.insertionSort StrLe).map String.data := by
      refine joinChar_inj ',' _ _ ?_ ?_ h
      · intro s hs
        rcases List.mem_map.mp hs with ⟨t, ht, rfl⟩
        have := hu t ((List.mem_insertionSort StrLe).mp ht)
        exact ⟨string_data_ne_nil this.1, this.2⟩
      · intro s hs
        rcases List.mem_map.mp hs with ⟨t, ht, rfl⟩
        have := hc t ((List.mem_insertionSort StrLe).mp ht)
        exact ⟨string_data_ne_nil this.1, this.2⟩
    have hsort : u.insertionSort StrLe = c.insertionSort StrLe :=
      List.map_injective_iff.mpr (fun a b hab => String.ext hab) hinj
    exact ((List.perm_insertionSort StrLe u).symm.trans (hsort ▸ List.Perm.refl _)).trans
      (List.perm_insertionSort StrLe c)
  · intro h
    have hperm : List.Perm (u.insertionSort StrLe) (c.insertionSort StrLe) :=
      ((List.perm_insertionSort StrLe u).trans h).trans
        (List.perm_insertionSort StrLe c).symm
    have hsort : u.insertionSort StrLe = c.insertionSort StrLe :=
      List.eq_of_perm_of_sorted hperm
        (List.sorted_insertionSort StrLe u) (List.sorted_insertionSort StrLe c)
    unfold jsSortedKey
    rw [hsort]

/-- C1 counterexample: the scorer marks the submission `["a,b"]` correct against
the answer key `["a", "b"]` (the sorted comma-joins collide), although the two
answer sets are different -- the claimed set-equality characterisation fails. -/
theorem c1_counterexample :
    (calculateScore demoTestComma demoAnswersComma).details
      = [{ questionId := "q1", correct := true, userAnswers := ["a,b"],
           correctAnswers := ["a", "b"] }] ∧
    ¬ (∀ x : String, x ∈ (["a,b"] : List String) ↔ x ∈ (["a", "b"] : List String)) := by
  constructor
  · decide
  · intro h
    exact absurd ((h "a").mpr (by decide)) (by decide)

/-- C1 as amended: a missing question id is looked up as the empty set (never an
error), and -- provided every answer string involved is non-empty and comma-free
-- the scorer marks a question correct iff the submitted answers are a
permutation of `correctAnswers` (order-independent multiset equality, no partial
credit).  Without the proviso the comma-join comparison can merge distinct sets
(see the counterexample). -/
theorem c1_scorer_multiset_semantics (test : PracticeTest) (answers : AnswerMap)
    (q : Question) (hq : q ∈ test.questions)
    (hc : ∀ s ∈ q.correctAnswers, s ≠ "" ∧ (',' : Char) ∉ s.data)
    (hu : ∀ s ∈ lookupAnswers answers q.id, s ≠ "" ∧ (',' : Char) ∉ s.data) :
    detailFor answers q ∈ (calculateScore test answers).details ∧
    (answers.lookup q.id = none → (detailFor answers q).userAnswers = []) ∧
    ((detailFor answers q).correct = true ↔
      List.Perm (lookupAnswers answers q.id) q.correctAnswers) := by
  refine ⟨?_, ?_, ?_⟩
  · simp only [calculateScore]
    exact List.mem_map_of_mem (detailFor answers) hq
  · intro h
    simp [detailFor, lookupAnswers, h]
  · have hcor : (detailFor answers q).correct
        = isCorrectAnswer (lookupAnswers answers q.id) q.correctAnswers := rfl
    rw [hcor]
    unfold isCorrectAnswer
    rw [beq_iff_eq]
    exact jsSortedKey_eq_iff_perm (lookupAnswers answers q.id) q.correctAnswers hu hc

/-- Witness for C1 (amended) on a one-question test answered correctly in
reversed order. -/
theorem c1_scorer_multiset_semantics_witness :
    demoQ1 ∈ demoTest1.questions ∧
    ((detailFor demoAnswers1 demoQ1).correct = true ↔
      List.Perm (lookupAnswers demoAnswers1 demoQ1.id) demoQ1.correctAnswers) :=
  ⟨by decide,
    (c1_scorer_multiset_semantics demoTest1 demoAnswers1 demoQ1 (by decide) (by decide)
      (by decide)).2.2⟩

/-! ## C10: question ids are pairwise distinct within a generated test -/

/-- Every digit character produced for a base-10 digit is a decimal digit. -/
theorem digitChar_isDigit : ∀ k, k < 10 → (Nat.digitChar k).isDigit = true := by
  decide

/-- All characters `Nat.toDigitsCore 10` pushes onto a digit accumulator are
digits. -/
theorem toDigitsCore_isDigit : ∀ (fuel n : Nat) (ds : List Char),
    (∀ c ∈ ds, c.isDigit = true) →
    ∀ c ∈ Nat.toDigitsCore 10 fuel n ds, c.isDigit = true := by
  intro fuel
  induction fuel with
  | zero =>
    intro n ds hds c hc
    simp only [Nat.toDigitsCore] at hc
    exact hds c hc
  | succ f ih =>
    intro n ds hds c hc
    simp only [Nat.toDigitsCore] at hc
    have hd : (Nat.digitChar (n % 10)).isDigit = true :=
      digitChar_isDigit _ (Nat.mod_lt _ (by norm_num))
    have hds2 : ∀ c2 ∈ Nat.digitChar (n % 10) :: ds, c2.isDigit = true := by
      intro c2 hc2
      rcases List.mem_cons.mp hc2 with h | h
      · rw [h]; exact hd
      · exact hds c2 h
    split at hc
    · exact hds2 c hc
    · exact ih (n / 10) _ hds2 c hc

/-- Every character of `Nat.repr n` is a decimal digit. -/
theorem repr_isDigit (n : Nat) : ∀ c ∈ (Nat.repr n).data, c.isDigit = true := by
  intro c hc
  have : (Nat.repr n).data = Nat.toDigitsCore 10 (n + 1) n [] := rfl
  rw [this] at hc
  exact toDigitsCore_isDigit (n + 1) n [] (by simp) c hc

/-- The dash never occurs in a printed natural number. -/
theorem dash_not_in_repr (n : Nat) : ('-' : Char) ∉ (Nat.repr n).data := by
  intro h
  have := repr_isDigit n '-' h
  revert this
  decide

/-- The value of a digit character below 10 round-trips. -/
theorem digitVal_digitChar : ∀ k, k < 10 → digitVal (Nat.digitChar k) = k := by
  decide

/-- Valuation of `Nat.toDigitsCore 10` with sufficient fuel: the digits of `n`
in front of an accumulator value it as `n * 10 ^ |ds| + value ds`. -/
theorem ofDigits_toDigitsCore : ∀ (fuel n : Nat) (ds : List Char), n < 10 ^ fuel →
    ofDigits (Nat.toDigitsCore 10 fuel n ds) = n * 10 ^ ds.length + ofDigits ds := by
  intro fuel
  induction fuel with
  | zero =>
    intro n ds h
    have hn : n = 0 := by simpa using h
    subst hn
    simp [Nat.toDigitsCore]
  | succ f ih =>
    intro n ds h
    simp only [Nat.toDigitsCore]
    have hval : digitVal (Nat.digitChar (n % 10)) = n % 10 :=
      digitVal_digitChar _ (Nat.mod_lt _ (by norm_num))
    split
    · next h0 =>
      have hn : n % 10 = n := Nat.mod_eq_of_lt (by omega)
      simp only [ofDigits]
      rw [hval, hn]
    · next h0 =>
      have hbound : n / 10 < 10 ^ f := by
        rw [Nat.div_lt_iff_lt_mul (by norm_num : 0 < 10), ← pow_succ]
        exact h
      rw [ih (n / 10) (Nat.digitChar (n % 10) :: ds) hbound]
      simp only [ofDigits, hval, List.length_cons, pow_succ]
      have h2 : n / 10 * (10 ^ ds.length * 10) + (n % 10 * 10 ^ ds.length + ofDigits ds)
          = (10 * (n / 10) + n % 10) * 10 ^ ds.length + ofDigits ds := by ring
      rw [h2, Nat.div_add_mod]

/-- Fuel bound used for `Nat.toDigits`: every `n` is below `10 ^ (n + 1)`. -/
theorem lt_ten_pow_succ (n : Nat) : n < 10 ^ (n + 1) := by
  have h1 : n < 10 ^ n := Nat.lt_pow_self (by norm_num) n
  have h2 : (10 : Nat) ^ n ≤ 10 ^ (n + 1) :=
    Nat.pow_le_pow_right (by norm_num) (Nat.le_succ n)
  omega

/-- `Nat.repr` is injective: the decimal digit string determines the number. -/
theorem repr_inj {m n : Nat} (h : Nat.repr m = Nat.repr n) : m = n := by
  have hd : (Nat.repr m).data = (Nat.repr n).data := by rw [h]
  have hm : (Nat.repr m).data = Nat.toDigitsCore 10 (m + 1) m [] := rfl
  have hn : (Nat.repr n).data = Nat.toDigitsCore 10 (n + 1) n [] := rfl
  have hvm : ofDigits (Nat.toDigitsCore 10 (m + 1) m []) = m := by
    rw [ofDigits_toDigitsCore (m + 1) m [] (lt_ten_pow_succ m)]
    simp [ofDigits]
  have hvn : ofDigits (Nat.toDigitsCore 10 (n + 1) n []) = n := by
    rw [ofDigits_toDigitsCore (n + 1) n [] (lt_ten_pow_succ n)]
    simp [ofDigits]
  rw [← hvm, ← hvn, ← hm, ← hn, hd]

/-- The index is recoverable from a generated `mc-` id: equal ids mean equal
indices (whatever the two timestamps were). -/
theorem mcIdStr_inj {a b i j : Nat} (h : mcIdStr a i = mcIdStr b j) : i = j := by
  have hd := congrArg String.data h
  simp only [mcIdStr, String.data_append, List.append_assoc] at hd
  simp only [List.cons_append, List.nil_append, List.cons.injEq, true_and] at hd
  have hsplit := append_sep_inj '-' (Nat.repr a).data (Nat.repr b).data
    ((Nat.repr i).data) ((Nat.repr j).data) (dash_not_in_repr a) (dash_not_in_repr b)
    (by simpa using hd)
  exact repr_inj (String.ext hsplit.2)

/-- Same for `ms-` ids. -/
theorem msIdStr_inj {a b i j : Nat} (h : msIdStr a i = msIdStr b j) : i = j := by
  have hd := congrArg String.data h
  simp only [msIdStr, String.data_append, List.append_assoc] at hd
  simp only [List.cons_append, List.nil_append, List.cons.injEq, true_and] at hd
  have hsplit := append_sep_inj '-' (Nat.repr a).data (Nat.repr b).data
    ((Nat.repr i).data) ((Nat.repr j).data) (dash_not_in_repr a) (dash_not_in_repr b)
    (by simpa using hd)
  exact repr_inj (String.ext hsplit.2)

/-- An `mc-` id never equals an `ms-` id (second character differs). -/
theorem mcIdStr_ne_msIdStr (a i b j : Nat) : mcIdStr a i ≠ msIdStr b j := by
  intro h
  have hd := congrArg String.data h
  simp only [mcIdStr, msIdStr, String.data_append, List.append_assoc] at hd
  simp only [List.cons_append, List.nil_append, List.cons.injEq] at hd
  exact absurd hd.2.1 (by decide)

/-- The ids of a mapped multiple-choice batch are pairwise distinct. -/
theorem mcIds_nodup (ts : Nat → Nat) (parsed : List RawMCQuestion) :
    ((mcQuestionsOfParsed ts parsed).map Question.id).Nodup := by
  have heq : (mcQuestionsOfParsed ts parsed).map Question.id
      = (List.range parsed.length).map (fun i => mcIdStr (ts i) i) := by
    rw [← List.enum_map_fst parsed]
    unfold mcQuestionsOfParsed
    rw [List.map_map, List.map_map]
    rfl
  rw [heq]
  exact (List.nodup_range _).map (fun i j h => mcIdStr_inj h)

/-- The ids of a mapped multiple-select batch are pairwise distinct. -/
theorem msIds_nodup (ts : Nat → Nat) (parsed : List RawMSQuestion) :
    ((msQuestionsOfParsed ts parsed).map Question.id).Nodup := by
  have heq : (msQuestionsOfParsed ts parsed).map Question.id
      = (List.range parsed.length).map (fun i => msIdStr (ts i) i) := by
    rw [← List.enum_map_fst parsed]
    unfold msQuestionsOfParsed
    rw [List.map_map, List.map_map]
    rfl
  rw [heq]
  exact (List.nodup_range _).map (fun i j h => msIdStr_inj h)

/-- C10: within a single generated test -- whatever the parsed model records,
per-record timestamps, requested count and shuffle draws -- all question ids
are pairwise distinct: `mc-` ids separate from `ms-` ids by prefix, and indices
separate questions within a sub-batch, so the per-id answer lookup of the
scorer is unambiguous. -/
theorem c10_question_ids_nodup (tsMC tsMS : Nat → Nat) (mcParsed : List RawMCQuestion)
    (msParsed : List RawMSQuestion) (questionCount : Int) (rand : Nat → Nat) :
    ((generateQuestions questionCount (mcQuestionsOfParsed tsMC mcParsed)
        (msQuestionsOfParsed tsMS msParsed) rand).1.map Question.id).Nodup := by
  have hperm : List.Perm
      ((generateQuestions questionCount (mcQuestionsOfParsed tsMC mcParsed)
        (msQuestionsOfParsed tsMS msParsed) rand).1.map Question.id)
      (((if 0 < multipleChoiceCountOf questionCount then mcQuestionsOfParsed tsMC mcParsed
          else []) ++
        (if 0 < multipleSelectCountOf questionCount then msQuestionsOfParsed tsMS msParsed
          else [])).map Question.id) := by
    exact (shuffleArray_perm rand _).map Question.id
  rw [hperm.nodup_iff]
  rw [List.map_append, List.nodup_append]
  refine ⟨?_, ?_, ?_⟩
  · split
    · exact mcIds_nodup tsMC mcParsed
    · simp
  · split
    · exact msIds_nodup tsMS msParsed
    · simp
  · intro s hs1 hs2
    split at hs1
    · split at hs2
      · simp only [List.mem_map, mcQuestionsOfParsed] at hs1
        simp only [List.mem_map, msQuestionsOfParsed] at hs2
        rcases hs1 with ⟨q1, hq1, hid1⟩
        rcases hs2 with ⟨q2, hq2, hid2⟩
        rcases hq1 with ⟨p1, _, hp1⟩
        rcases hq2 with ⟨p2, _, hp2⟩
        have h1 : q1.id = mcIdStr (tsMC p1.1) p1.1 := by rw [← hp1]; rfl
        have h2 : q2.id = msIdStr (tsMS p2.1) p2.1 := by rw [← hp2]; rfl
        exact mcIdStr_ne_msIdStr (tsMC p1.1) p1.1 (tsMS p2.1) p2.1
          (by rw [← h1, ← h2, hid1, hid2])
      · simp at hs2
    · simp at hs1

end PTG
